import Mathlib

/-!
# Verification of the pngparser PNG container parser

Shallow embedding of `pngparser.py` (a PNG chunk-stream parser) and proofs
checking its natural-language specification against the code.

Modelling conventions:
- A Python byte string is `List (Fin 256)`.
- Python slicing `data[a:b]` is `pyslice` (truncating, never failing);
  Python string indexing `data[k]` is `pyindex` (IndexError when out of range).
- `struct.unpack` on a slice of the wrong width raises `struct.error`,
  modelled by `PyErr.structErr`; an out-of-range index raises `IndexError`
  (`PyErr.indexErr`); `ParseError(msg)` is `PyErr.parseErr msg`.
- Python 2's `binascii.crc32` returns a signed 32-bit value; the embedding
  computes the standard (unsigned) CRC-32 as a `Nat` and converts with
  `toSigned32` exactly where the source works with signed values.
- `zlib.decompress` is an external collaborator and is passed in as an
  explicit function argument `inflate` to the decoders that use it.
- Python floats produced by `x / 100000.` are idealized as exact rationals.
-/

abbrev Byte := Fin 256

abbrev ByteStr := List Byte

/-- Python `data[a:b]` for nonnegative indices: truncating slice. -/
def pyslice (data : ByteStr) (a b : Nat) : ByteStr :=
  (data.drop a).take (b - a)

/-- Python `data[k]` on a string: the byte at `k`, IndexError if out of range.
Expressed via `List.drop` so that it rewrites well against slice lemmas. -/
def pyByteAt (data : ByteStr) (k : Nat) : Option Byte :=
  match data.drop k with
  | [] => none
  | b :: _ => some b

/-- Big-endian interpretation of a byte string as an unsigned number
(the value `struct.unpack(">I", s)` / `(">H", s)` computes on an exact slice). -/
def beNat (s : ByteStr) : Nat :=
  s.foldl (fun a b => a * 256 + b.val) 0

/-- Reinterpret an unsigned 32-bit value as a signed 32-bit value
(what `struct.unpack(">i", ...)` yields from the same four bytes). -/
def toSigned32 (n : Nat) : Int :=
  if n < 2 ^ 31 then (n : Int) else (n : Int) - 2 ^ 32

/-- Bit-cast a signed 32-bit value back to unsigned,
as `struct.unpack("I", struct.pack("i", v))` does in `PNGChunk.__str__`. -/
def toUnsigned32 (v : Int) : Nat :=
  (v % 2 ^ 32).toNat

/-- Errors the Python code can raise while parsing. -/
inductive PyErr where
  | structErr : PyErr
  | indexErr : PyErr
  | parseErr : String → PyErr
  deriving DecidableEq, Repr

deriving instance DecidableEq for Except

/-- Model of `struct.unpack(">I", data[off:off+4])[0]`:
`struct.error` unless the slice has exactly 4 bytes. -/
def unpackU32 (data : ByteStr) (off : Nat) : Except PyErr Nat :=
  let s := pyslice data off (off + 4)
  if s.length = 4 then .ok (beNat s) else .error .structErr

/-- Model of `struct.unpack(">H", data[off:off+2])[0]`. -/
def unpackU16 (data : ByteStr) (off : Nat) : Except PyErr Nat :=
  let s := pyslice data off (off + 2)
  if s.length = 2 then .ok (beNat s) else .error .structErr

/-- Model of `struct.unpack(">4s", data[off:off+4])[0]`: the 4-byte tag. -/
def unpackTag (data : ByteStr) (off : Nat) : Except PyErr ByteStr :=
  let s := pyslice data off (off + 4)
  if s.length = 4 then .ok s else .error .structErr

/-- Model of `struct.unpack(">i", data[off:off+4])[0]`: signed big-endian. -/
def unpackI32 (data : ByteStr) (off : Nat) : Except PyErr Int :=
  (unpackU32 data off).map toSigned32

/-- Model of `struct.unpack(">B", data[off])[0]`: Python indexes the string
(IndexError when out of range) and unpacks the single byte. -/
def unpackU8 (data : ByteStr) (off : Nat) : Except PyErr Nat :=
  match pyByteAt data off with
  | none => .error .indexErr
  | some b => .ok b.val

/-- One step of the bit-reversed CRC-32 computation (polynomial 0xEDB88320). -/
def crcStep (c : Nat) : Nat :=
  if c % 2 = 1 then (c / 2) ^^^ 0xEDB88320 else c / 2

/-- Fold one byte into a running CRC-32 state. -/
def crcFoldByte (c : Nat) (b : Byte) : Nat :=
  (crcStep)^[8] (c ^^^ b.val)

/-- Standard CRC-32 of a byte string, as an unsigned value
(`binascii.crc32` computes this; Python 2 then reports it signed). -/
def binascii.crc32 (s : ByteStr) : Nat :=
  (s.foldl crcFoldByte 0xFFFFFFFF) ^^^ 0xFFFFFFFF

/-- The 8-byte PNG signature `PNGMAGIC`. -/
def PNGMAGIC : ByteStr :=
  [0x89, 0x50, 0x4e, 0x47, 0x0d, 0x0a, 0x1a, 0x0a]

/-- The `is_png` check: `data.startswith(PNGMAGIC)`. -/
def is_png (data : ByteStr) : Bool :=
  PNGMAGIC.isPrefixOf data

/-- A chunk record as built by `PNGChunk.__init__`. -/
structure PNGChunk where
  offset : Nat
  type : ByteStr
  data : ByteStr
  crc32 : Int
  valid : Bool
  term_color : Bool
  deriving DecidableEq, Repr

/-- `PNGChunk.__init__`: stores the fields and computes `valid` by comparing
Python 2's signed `binascii.crc32(type + data)` with the stored signed CRC. -/
def PNGChunk.init (offset : Nat) (ty : ByteStr) (data : ByteStr) (crc : Int) :
    PNGChunk :=
  { offset := offset
    type := ty
    data := data
    crc32 := crc
    valid := decide (toSigned32 (binascii.crc32 (ty ++ data)) = crc)
    term_color := false }

/-- The CRC value as displayed by `PNGChunk.__str__`:
`struct.unpack("I", struct.pack("i", self.crc32))[0]`, a bit-cast to unsigned. -/
def PNGChunk.crcDisplay (c : PNGChunk) : Nat :=
  toUnsigned32 c.crc32

/-- The `PNGFile` object: size and backing data. -/
structure PNGFile where
  size : Nat
  data : ByteStr
  deriving DecidableEq, Repr

/-- `PNGFile.__init__`: raises `ParseError` unless the data starts with the
PNG signature; otherwise stores length and data. -/
def PNGFile.init (data : ByteStr) : Except PyErr PNGFile :=
  if is_png data then .ok { size := data.length, data := data }
  else .error (.parseErr "Error parsing PNG data. Missing magic header")

/-- The body of the `PNGFile.chunks` generator loop, with explicit fuel.
Each iteration of the Python `while offset < len(self.data)` loop reads the
4-byte length, the 4-byte type, the (truncating) payload slice and the 4-byte
signed CRC, yields the chunk, and continues past it.  A raised exception ends
the generator; chunks already yielded remain delivered, so the result is the
list of yielded chunks together with the exception, if any, that ended the
scan.  The loop runs at most `(data.length - 8) / 12 + 1` iterations because
the offset strictly grows by at least 12 while it must stay below
`data.length`, so fuel `data.length + 1` (used by `PNGFile.chunks`) is never
exhausted; the fuel-0 case is unreachable. -/
def readChunksF : Nat → ByteStr → Nat → List PNGChunk × Option PyErr
  | 0, _, _ => ([], none)
  | fuel + 1, data, offset =>
    if offset < data.length then
      match unpackU32 data offset with
      | .error e => ([], some e)
      | .ok chunk_size =>
        match unpackTag data (offset + 4) with
        | .error e => ([], some e)
        | .ok chunk_type =>
          let chunk_data := pyslice data (offset + 8) (offset + 8 + chunk_size)
          match unpackI32 data (offset + 8 + chunk_size) with
          | .error e => ([], some e)
          | .ok chunk_crc32 =>
            let c := PNGChunk.init offset chunk_type chunk_data chunk_crc32
            let r := readChunksF fuel data (offset + 8 + chunk_size + 4)
            (c :: r.1, r.2)
    else ([], none)

/-- The `chunks` property of a `PNGFile`: the generator run to completion,
starting at offset `len(PNGMAGIC) = 8`. -/
def PNGFile.chunks (f : PNGFile) : List PNGChunk × Option PyErr :=
  readChunksF (f.data.length + 1) f.data PNGMAGIC.length

/-- Byte-by-byte scan for a `0x00` terminator over the remainder of a payload,
mirroring the `while True: if ord(data[offset]) == 0x00 ...` loops.  Returns
the collected bytes and the number of bytes consumed including the
terminator, or `none` for the IndexError Python raises when the scan walks
past the end of the string without finding a terminator. -/
def scanNullAux : ByteStr → Option (ByteStr × Nat)
  | [] => none
  | b :: rest =>
    if b.val = 0 then some ([], 1)
    else
      match scanNullAux rest with
      | none => none
      | some (s, k) => some (b :: s, k + 1)

/-- The terminator scan started at absolute offset `off` of `data`:
collected bytes and the offset just past the terminator. -/
def scanNull (data : ByteStr) (off : Nat) : Except PyErr (ByteStr × Nat) :=
  match scanNullAux (data.drop off) with
  | none => .error .indexErr
  | some (s, k) => .ok (s, off + k)

/-- Model of `struct.unpack(">HHH", data[off:off+6])`. -/
def unpackU16x3 (data : ByteStr) (off : Nat) : Except PyErr (Nat × Nat × Nat) :=
  let s := pyslice data off (off + 6)
  if s.length = 6 then
    .ok (beNat (pyslice s 0 2), beNat (pyslice s 2 4), beNat (pyslice s 4 6))
  else .error .structErr

/-- Fields decoded by `IHDR.__init__` (plus the offset stored by the shared
`Parser.__init__`). -/
structure IHDRrec where
  offset : Nat
  width : Nat
  height : Nat
  bit_depth : Nat
  color_type : Nat
  compression_method : Nat
  filter_method : Nat
  interlace_method : Nat
  deriving DecidableEq, Repr

/-- `IHDR.__init__`: fixed-width reads from the payload; the first argument
(the previously decoded header) is ignored. -/
def IHDR.init (_ : Option IHDRrec) (chunk : PNGChunk) : Except PyErr IHDRrec := do
  let data := chunk.data
  let width ← unpackU32 data 0
  let height ← unpackU32 data 4
  let bit_depth ← unpackU8 data 8
  let color_type ← unpackU8 data 9
  let compression_method ← unpackU8 data 10
  let filter_method ← unpackU8 data 11
  let interlace_method ← unpackU8 data 12
  return { offset := chunk.offset, width := width, height := height,
           bit_depth := bit_depth, color_type := color_type,
           compression_method := compression_method,
           filter_method := filter_method, interlace_method := interlace_method }

/-- Fields decoded by `sRGB.__init__`. -/
structure SRGBrec where
  offset : Nat
  ihdr : Option IHDRrec
  intent : Nat
  deriving DecidableEq, Repr

/-- `sRGB.__init__`. -/
def sRGB.init (ihdr : Option IHDRrec) (chunk : PNGChunk) : Except PyErr SRGBrec := do
  let intent ← unpackU8 chunk.data 0
  return { offset := chunk.offset, ihdr := ihdr, intent := intent }

/-- The shapes `bKGD.__init__` can give to `self.value` (`none` becomes
`unknownColor`). -/
inductive BKGDvalue where
  | palette (v : Nat)
  | gray (v : Nat)
  | rgb (r g b : Nat)
  | unknownColor
  deriving DecidableEq, Repr

/-- Fields decoded by `bKGD.__init__`. -/
structure BKGDrec where
  offset : Nat
  ihdr : Option IHDRrec
  value : BKGDvalue
  vtype : String
  deriving DecidableEq, Repr

/-- `bKGD.__init__`: raises `ParseError("IHDR is not set")` when no header
record was supplied, before touching the payload; otherwise branches on the
header's `color_type`. -/
def bKGD.init (ihdr : Option IHDRrec) (chunk : PNGChunk) : Except PyErr BKGDrec := do
  let data := chunk.data
  match ihdr with
  | none => .error (.parseErr "IHDR is not set")
  | some ih =>
    if ih.color_type = 3 then do
      let v ← unpackU8 data 0
      return { offset := chunk.offset, ihdr := ihdr, value := .palette v,
               vtype := "Palette Index" }
    else if ih.color_type = 0 ∨ ih.color_type = 4 then do
      let v ← unpackU16 data 0
      return { offset := chunk.offset, ihdr := ihdr, value := .gray v,
               vtype := "Grayscale" }
    else if ih.color_type = 2 ∨ ih.color_type = 6 then do
      let v ← unpackU16x3 data 0
      return { offset := chunk.offset, ihdr := ihdr,
               value := .rgb v.1 v.2.1 v.2.2, vtype := "RGB tripplet" }
    else
      return { offset := chunk.offset, ihdr := ihdr, value := .unknownColor,
               vtype := "UNKNOWN" }

/-- Fields decoded by `pHYs.__init__`. -/
structure PHYSrec where
  offset : Nat
  ihdr : Option IHDRrec
  ppux : Nat
  ppuy : Nat
  unit : Nat
  deriving DecidableEq, Repr

/-- `pHYs.__init__`: stores the header argument without any `None` check and
reads the three fixed fields. -/
def pHYs.init (ihdr : Option IHDRrec) (chunk : PNGChunk) : Except PyErr PHYSrec := do
  let data := chunk.data
  let ppux ← unpackU32 data 0
  let ppuy ← unpackU32 data 4
  let unit ← unpackU8 data 8
  return { offset := chunk.offset, ihdr := ihdr, ppux := ppux, ppuy := ppuy,
           unit := unit }

/-- Fields decoded by `tIME.__init__`. -/
structure TIMErec where
  offset : Nat
  year : Nat
  month : Nat
  day : Nat
  hour : Nat
  minute : Nat
  second : Nat
  deriving DecidableEq, Repr

/-- `tIME.__init__`. -/
def tIME.init (_ : Option IHDRrec) (chunk : PNGChunk) : Except PyErr TIMErec := do
  let data := chunk.data
  let year ← unpackU16 data 0
  let month ← unpackU8 data 2
  let day ← unpackU8 data 3
  let hour ← unpackU8 data 4
  let minute ← unpackU8 data 5
  let second ← unpackU8 data 6
  return { offset := chunk.offset, year := year, month := month, day := day,
           hour := hour, minute := minute, second := second }

/-- Fields decoded by `iCCP.__init__`. -/
structure ICCPrec where
  offset : Nat
  profile_name : ByteStr
  compression_method : Nat
  compressed_profile : ByteStr
  deriving DecidableEq, Repr

/-- `iCCP.__init__`: terminator scan for the profile name, then — mirroring
the extra `offset += 1` at line 304 — one byte is skipped before the
compression method is read; when the method is 0 the rest is inflated with
`zlib.decompress` (passed in as `inflate`). -/
def iCCP.init (inflate : ByteStr → Except PyErr ByteStr)
    (_ : Option IHDRrec) (chunk : PNGChunk) : Except PyErr ICCPrec := do
  let data := chunk.data
  let n ← scanNull data 0
  let profile_name := n.1
  let off := n.2 + 1
  let compression_method ← unpackU8 data off
  let raw := data.drop (off + 1)
  let compressed_profile ← if compression_method = 0 then inflate raw else .ok raw
  return { offset := chunk.offset, profile_name := profile_name,
           compression_method := compression_method,
           compressed_profile := compressed_profile }

/-- Fields decoded by `tEXt.__init__`. -/
structure TEXTrec where
  offset : Nat
  keyword : ByteStr
  text : ByteStr
  deriving DecidableEq, Repr

/-- `tEXt.__init__`: terminator scan for the keyword, the remainder is the
raw text. -/
def tEXt.init (_ : Option IHDRrec) (chunk : PNGChunk) : Except PyErr TEXTrec := do
  let n ← scanNull chunk.data 0
  return { offset := chunk.offset, keyword := n.1, text := chunk.data.drop n.2 }

/-- Fields decoded by `zTXt.__init__`. -/
structure ZTXTrec where
  offset : Nat
  keyword : ByteStr
  text : ByteStr
  deriving DecidableEq, Repr

/-- `zTXt.__init__`: terminator scan for the keyword, an extra byte skipped
(line 357), then the remainder is always inflated. -/
def zTXt.init (inflate : ByteStr → Except PyErr ByteStr)
    (_ : Option IHDRrec) (chunk : PNGChunk) : Except PyErr ZTXTrec := do
  let n ← scanNull chunk.data 0
  let text ← inflate (chunk.data.drop (n.2 + 1))
  return { offset := chunk.offset, keyword := n.1, text := text }

/-- Fields decoded by `iTXt.__init__`. -/
structure ITXTrec where
  offset : Nat
  keyword : ByteStr
  compression_flag : Bool
  compression_method : Nat
  language_tag : ByteStr
  translate_keyword : ByteStr
  text : ByteStr
  deriving DecidableEq, Repr

/-- `iTXt.__init__`: keyword scan, flag and method bytes, two more
terminator scans, then the remainder, inflated only when
`compression_flag` is set and the method is 0. -/
def iTXt.init (inflate : ByteStr → Except PyErr ByteStr)
    (_ : Option IHDRrec) (chunk : PNGChunk) : Except PyErr ITXTrec := do
  let data := chunk.data
  let n ← scanNull data 0
  let cf ← unpackU8 data n.2
  let compression_flag := cf = 1
  let compression_method ← unpackU8 data (n.2 + 1)
  let lt ← scanNull data (n.2 + 2)
  let tk ← scanNull data lt.2
  let raw := data.drop tk.2
  let text ←
    if compression_flag ∧ compression_method = 0 then inflate raw else .ok raw
  return { offset := chunk.offset, keyword := n.1,
           compression_flag := compression_flag,
           compression_method := compression_method, language_tag := lt.1,
           translate_keyword := tk.1, text := text }

/-- Fields decoded by `pCAL.__init__`.  `x0` and `x1` are kept as integers to
record how the source interprets the four bytes. -/
structure PCALrec where
  offset : Nat
  calibration_name : ByteStr
  x0 : Int
  x1 : Int
  eqtype : Nat
  num_params : Nat
  unit_name : ByteStr
  p0 : ByteStr
  pl : ByteStr
  deriving DecidableEq, Repr

/-- `pCAL.__init__`: name scan, then `x0` and `x1` via `struct.unpack(">I")`
— the unsigned format — two single bytes, two more terminator scans, and the
remaining bytes. -/
def pCAL.init (_ : Option IHDRrec) (chunk : PNGChunk) : Except PyErr PCALrec := do
  let data := chunk.data
  let n ← scanNull data 0
  let x0 ← unpackU32 data n.2
  let x1 ← unpackU32 data (n.2 + 4)
  let eqtype ← unpackU8 data (n.2 + 8)
  let num_params ← unpackU8 data (n.2 + 9)
  let un ← scanNull data (n.2 + 10)
  let p0 ← scanNull data un.2
  return { offset := chunk.offset, calibration_name := n.1, x0 := (x0 : Int),
           x1 := (x1 : Int), eqtype := eqtype, num_params := num_params,
           unit_name := un.1, p0 := p0.1, pl := data.drop p0.2 }

/-- Fields decoded by `cHRM.__init__` (each raw u32 divided by `100000.`,
idealized as an exact rational). -/
structure CHRMrec where
  offset : Nat
  wpx : ℚ
  wpy : ℚ
  redx : ℚ
  redy : ℚ
  greenx : ℚ
  greeny : ℚ
  bluex : ℚ
  bluey : ℚ
  deriving DecidableEq, Repr

/-- `cHRM.__init__`. -/
def cHRM.init (_ : Option IHDRrec) (chunk : PNGChunk) : Except PyErr CHRMrec := do
  let data := chunk.data
  let wpx ← unpackU32 data 0
  let wpy ← unpackU32 data 4
  let redx ← unpackU32 data 8
  let redy ← unpackU32 data 12
  let greenx ← unpackU32 data 16
  let greeny ← unpackU32 data 20
  let bluex ← unpackU32 data 24
  let bluey ← unpackU32 data 28
  return { offset := chunk.offset, wpx := (wpx : ℚ) / 100000,
           wpy := (wpy : ℚ) / 100000, redx := (redx : ℚ) / 100000,
           redy := (redy : ℚ) / 100000, greenx := (greenx : ℚ) / 100000,
           greeny := (greeny : ℚ) / 100000, bluex := (bluex : ℚ) / 100000,
           bluey := (bluey : ℚ) / 100000 }

/-- Fields decoded by `gAMA.__init__` (`raw_u32 / 100000.`, idealized as an
exact rational). -/
structure GAMArec where
  offset : Nat
  gamma : ℚ
  deriving DecidableEq, Repr

/-- `gAMA.__init__`: `struct.unpack(">I", data[:4])[0] / 100000.`. -/
def gAMA.init (_ : Option IHDRrec) (chunk : PNGChunk) : Except PyErr GAMArec := do
  let g ← unpackU32 chunk.data 0
  return { offset := chunk.offset, gamma := (g : ℚ) / 100000 }

/-- The tagged union of decode results over the twelve registered types. -/
inductive DecodedRecord where
  | ihdr (r : IHDRrec)
  | srgb (r : SRGBrec)
  | bkgd (r : BKGDrec)
  | phys (r : PHYSrec)
  | time (r : TIMErec)
  | iccp (r : ICCPrec)
  | text (r : TEXTrec)
  | ztxt (r : ZTXTrec)
  | itxt (r : ITXTrec)
  | pcal (r : PCALrec)
  | chrm (r : CHRMrec)
  | gama (r : GAMArec)
  deriving DecidableEq, Repr

/-- The `chunk_parser` registry from the source: a fixed association from the
4-byte ASCII tag to the decoder for that type.  Decoders that call
`zlib.decompress` receive it as the `inflate` argument. -/
def chunkRegistry (inflate : ByteStr → Except PyErr ByteStr) :
    List (ByteStr × (Option IHDRrec → PNGChunk → Except PyErr DecodedRecord)) :=
  [ ([0x49, 0x48, 0x44, 0x52], fun ih c => (IHDR.init ih c).map .ihdr),
    ([0x73, 0x52, 0x47, 0x42], fun ih c => (sRGB.init ih c).map .srgb),
    ([0x62, 0x4B, 0x47, 0x44], fun ih c => (bKGD.init ih c).map .bkgd),
    ([0x70, 0x48, 0x59, 0x73], fun ih c => (pHYs.init ih c).map .phys),
    ([0x74, 0x49, 0x4D, 0x45], fun ih c => (tIME.init ih c).map .time),
    ([0x69, 0x43, 0x43, 0x50], fun ih c => (iCCP.init inflate ih c).map .iccp),
    ([0x74, 0x45, 0x58, 0x74], fun ih c => (tEXt.init ih c).map .text),
    ([0x7A, 0x54, 0x58, 0x74], fun ih c => (zTXt.init inflate ih c).map .ztxt),
    ([0x69, 0x54, 0x58, 0x74], fun ih c => (iTXt.init inflate ih c).map .itxt),
    ([0x70, 0x43, 0x41, 0x4C], fun ih c => (pCAL.init ih c).map .pcal),
    ([0x63, 0x48, 0x52, 0x4D], fun ih c => (cHRM.init ih c).map .chrm),
    ([0x67, 0x41, 0x4D, 0x41], fun ih c => (gAMA.init ih c).map .gama) ]

/-- `chunk_parser.get(chunk.type, None)` followed by running the decoder:
the decode result (`none` for unrecognized tags) paired with the chunk as
the decoder leaves it.  The chunk in the result is rebuilt field by field
from what the decoder's code leaves in place — no decoder assigns to any
chunk attribute. -/
def decodeDispatch (inflate : ByteStr → Except PyErr ByteStr)
    (ihdr : Option IHDRrec) (c : PNGChunk) :
    Option (Except PyErr DecodedRecord) × PNGChunk :=
  match (chunkRegistry inflate).lookup c.type with
  | none => (none, c)
  | some f =>
    (some (f ihdr c),
     { offset := c.offset, type := c.type, data := c.data, crc32 := c.crc32,
       valid := c.valid, term_color := c.term_color })

/-! ## Concrete sample inputs used by the witness theorems -/

/-- A buffer with the PNG signature followed by a chunk whose declared length
(16) runs past the end of the buffer. -/
def truncatedInput : ByteStr :=
  PNGMAGIC ++ [0x00, 0x00, 0x00, 0x10, 0x49, 0x48, 0x44, 0x52]

/-- A PNG file holding a single empty `IEND` chunk with its correct stored
CRC (`0xAE426082`). -/
def fileIEND : PNGFile :=
  { size := 20,
    data := PNGMAGIC ++
      [0x00, 0x00, 0x00, 0x00, 0x49, 0x45, 0x4E, 0x44, 0xAE, 0x42, 0x60, 0x82] }

/-- A PNG file holding a single empty `IEND` chunk whose stored CRC bytes are
`FF FF FF FF`. -/
def fileFFCrc : PNGFile :=
  { size := 20,
    data := PNGMAGIC ++
      [0x00, 0x00, 0x00, 0x00, 0x49, 0x45, 0x4E, 0x44, 0xFF, 0xFF, 0xFF, 0xFF] }

/-- A `tEXt` chunk whose one-byte payload contains no `0x00` terminator. -/
def chunkNoNull : PNGChunk :=
  PNGChunk.init 33 [0x74, 0x45, 0x58, 0x74] [0x41] 0

/-- A `pHYs` chunk with a well-formed 9-byte payload (1 × 1 pixels per unit,
unit 1). -/
def chunkPhys : PNGChunk :=
  PNGChunk.init 33 [0x70, 0x48, 0x59, 0x73]
    [0x00, 0x00, 0x00, 0x01, 0x00, 0x00, 0x00, 0x01, 0x01] 0

/-- A `bKGD` chunk with a 6-byte payload. -/
def chunkBkgd : PNGChunk :=
  PNGChunk.init 45 [0x62, 0x4B, 0x47, 0x44]
    [0x00, 0x01, 0x00, 0x02, 0x00, 0x03] 0

/-- A `pCAL` chunk whose `x0` field is `FF FF FF FF` (empty calibration
name, `x1` = 1, equation type 1, zero parameters, empty unit name and
parameter 0). -/
def chunkPcal : PNGChunk :=
  PNGChunk.init 33 [0x70, 0x43, 0x41, 0x4C]
    [0x00, 0xFF, 0xFF, 0xFF, 0xFF, 0x00, 0x00, 0x00, 0x01, 0x01, 0x00, 0x00,
     0x00] 0

/-- A `gAMA` chunk encoding the raw value 45455 (`0x0000B18F`). -/
def chunkGamma : PNGChunk :=
  PNGChunk.init 33 [0x67, 0x41, 0x4D, 0x41] [0x00, 0x00, 0xB1, 0x8F] 0

/-- The 13-byte header payload of the spec scenario: width 1, height 1, bit
depth 8, color type 2 (RGB), methods 0. -/
def ihdrPayload : ByteStr :=
  [0x00, 0x00, 0x00, 0x01, 0x00, 0x00, 0x00, 0x01, 0x08, 0x02, 0x00, 0x00,
   0x00]

/-- An identity stand-in for `zlib.decompress`, used to instantiate decoder
theorems at concrete inputs whose compressed fields are never reached. -/
def okInflate : ByteStr → Except PyErr ByteStr := fun s => .ok s

/-! ## Arithmetic and byte-level helper lemmas -/

theorem beNat_lt_of_length_four {s : ByteStr} (h : s.length = 4) :
    beNat s < 2 ^ 32 := by
  match s, h with
  | [a, b, c, d], _ =>
    have ha := a.isLt
    have hb := b.isLt
    have hc := c.isLt
    have hd := d.isLt
    have h32 : (2 : Nat) ^ 32 = 4294967296 := by norm_num
    simp only [beNat, List.foldl, h32]
    omega

theorem toSigned32_inj {a b : Nat} (ha : a < 2 ^ 32) (hb : b < 2 ^ 32) :
    toSigned32 a = toSigned32 b ↔ a = b := by
  unfold toSigned32
  constructor
  · intro h
    split at h <;> split at h <;> omega
  · intro h
    subst h
    rfl

theorem toUnsigned32_toSigned32 {u : Nat} (h : u < 2 ^ 32) :
    toUnsigned32 (toSigned32 u) = u := by
  unfold toUnsigned32 toSigned32
  split <;> omega

theorem crcStep_lt {c : Nat} (h : c < 2 ^ 32) : crcStep c < 2 ^ 32 := by
  unfold crcStep
  split
  · exact Nat.xor_lt_two_pow (by omega) (by norm_num)
  · omega

theorem crcStep_iterate_lt (n : Nat) : ∀ {c : Nat}, c < 2 ^ 32 →
    (crcStep)^[n] c < 2 ^ 32 := by
  induction n with
  | zero => intro c h; simpa using h
  | succ k ih =>
    intro c h
    rw [Function.iterate_succ_apply]
    exact ih (crcStep_lt h)

theorem crcFoldByte_lt {c : Nat} (h : c < 2 ^ 32) (b : Byte) :
    crcFoldByte c b < 2 ^ 32 :=
  crcStep_iterate_lt 8 (Nat.xor_lt_two_pow h (lt_trans b.isLt (by norm_num)))

theorem crc32_lt (s : ByteStr) : binascii.crc32 s < 2 ^ 32 := by
  unfold binascii.crc32
  refine Nat.xor_lt_two_pow ?_ (by norm_num)
  have main : ∀ (l : ByteStr) (c : Nat), c < 2 ^ 32 →
      l.foldl crcFoldByte c < 2 ^ 32 := by
    intro l
    induction l with
    | nil => intro c hc; simpa using hc
    | cons b t ih => intro c hc; exact ih _ (crcFoldByte_lt hc b)
  exact main s 0xFFFFFFFF (by norm_num)

theorem unpackU32_ok_lt {d : ByteStr} {o u : Nat}
    (h : unpackU32 d o = .ok u) : u < 2 ^ 32 := by
  simp only [unpackU32] at h
  split at h
  · next hl =>
    cases h
    exact beNat_lt_of_length_four hl
  · cases h

theorem unpackI32_ok {d : ByteStr} {o : Nat} {v : Int}
    (h : unpackI32 d o = .ok v) : ∃ u, u < 2 ^ 32 ∧ v = toSigned32 u := by
  simp only [unpackI32] at h
  cases hu : unpackU32 d o with
  | error e => rw [hu] at h; cases h
  | ok u =>
    rw [hu] at h
    cases h
    exact ⟨u, unpackU32_ok_lt hu, rfl⟩

/-! ## Reading at append boundaries -/

theorem drop_shift {data s rest : ByteStr} {off k : Nat}
    (hd : data.drop off = s ++ rest) (hs : s.length = k) :
    data.drop (off + k) = rest := by
  rw [← List.drop_drop, hd, List.drop_left' hs]

theorem drop_congr_of_ge {d₁ d₂ : ByteStr} {off o : Nat}
    (h : d₁.drop off = d₂.drop off) (ho : off ≤ o) :
    d₁.drop o = d₂.drop o := by
  have ho' : o = off + (o - off) := by omega
  rw [ho', ← List.drop_drop, ← List.drop_drop, h]

theorem pyslice_eq_take_drop (data : ByteStr) (off k : Nat) :
    pyslice data off (off + k) = (data.drop off).take k := by
  unfold pyslice
  congr 1
  omega

theorem unpackU32_of_drop {data s rest : ByteStr} {off : Nat}
    (hd : data.drop off = s ++ rest) (hs : s.length = 4) :
    unpackU32 data off = .ok (beNat s) := by
  simp only [unpackU32, pyslice_eq_take_drop, hd, List.take_left' hs, hs,
    if_true]

theorem unpackU16_of_drop {data s rest : ByteStr} {off : Nat}
    (hd : data.drop off = s ++ rest) (hs : s.length = 2) :
    unpackU16 data off = .ok (beNat s) := by
  simp only [unpackU16, pyslice_eq_take_drop, hd, List.take_left' hs, hs,
    if_true]

theorem unpackTag_of_drop {data s rest : ByteStr} {off : Nat}
    (hd : data.drop off = s ++ rest) (hs : s.length = 4) :
    unpackTag data off = .ok s := by
  simp only [unpackTag, pyslice_eq_take_drop, hd, List.take_left' hs, hs,
    if_true]

theorem unpackI32_of_drop {data s rest : ByteStr} {off : Nat}
    (hd : data.drop off = s ++ rest) (hs : s.length = 4) :
    unpackI32 data off = .ok (toSigned32 (beNat s)) := by
  simp only [unpackI32, unpackU32_of_drop hd hs, Except.map]

theorem unpackU8_of_drop {data rest : ByteStr} {b : Byte} {off : Nat}
    (hd : data.drop off = b :: rest) :
    unpackU8 data off = .ok b.val := by
  simp only [unpackU8, pyByteAt, hd]

theorem scanNullAux_eq_none {s : ByteStr} (h : ∀ b ∈ s, b.val ≠ 0) :
    scanNullAux s = none := by
  induction s with
  | nil => rfl
  | cons b t ih =>
    have hb : b.val ≠ 0 := h b (by simp)
    simp [scanNullAux, hb, ih (fun x hx => h x (by simp [hx]))]

theorem scanNullAux_of_append {a : ByteStr} (t : ByteStr)
    (h : ∀ b ∈ a, b.val ≠ 0) :
    scanNullAux (a ++ (0 : Byte) :: t) = some (a, a.length + 1) := by
  induction a with
  | nil => simp [scanNullAux]
  | cons b r ih =>
    have hb : b.val ≠ 0 := h b (by simp)
    simp [scanNullAux, hb, ih (fun x hx => h x (by simp [hx]))]

theorem scanNull_eq_indexErr {data : ByteStr} {off : Nat}
    (h : ∀ b ∈ data.drop off, b.val ≠ 0) :
    scanNull data off = .error .indexErr := by
  unfold scanNull
  rw [scanNullAux_eq_none h]

theorem scanNull_of_drop {data a t : ByteStr} {off : Nat}
    (hd : data.drop off = a ++ (0 : Byte) :: t) (h : ∀ b ∈ a, b.val ≠ 0) :
    scanNull data off = .ok (a, off + (a.length + 1)) := by
  unfold scanNull
  rw [hd, scanNullAux_of_append t h]

/-! ## Generic read lemmas at in-bounds offsets -/

theorem unpackU32_ok_of_le {data : ByteStr} {off : Nat}
    (h : off + 4 ≤ data.length) :
    unpackU32 data off = .ok (beNat ((data.drop off).take 4)) := by
  have hlen : ((data.drop off).take 4).length = 4 := by
    simp only [List.length_take, List.length_drop]
    omega
  simp [unpackU32, pyslice_eq_take_drop, hlen]

theorem unpackU8_ok_of_lt {data : ByteStr} {off : Nat}
    (h : off < data.length) : ∃ v, unpackU8 data off = .ok v := by
  simp only [unpackU8, pyByteAt]
  cases hd : data.drop off with
  | nil =>
    exfalso
    have := congrArg List.length hd
    simp at this
    omega
  | cons b t => exact ⟨b.val, rfl⟩

theorem is_png_iff_take (data : ByteStr) :
    is_png data = true ↔ data.take 8 = PNGMAGIC := by
  unfold is_png
  rw [List.isPrefixOf_iff_prefix, List.prefix_iff_eq_take]
  rw [show PNGMAGIC.length = 8 from rfl]
  exact eq_comm

/-! ## Claim theorems -/

set_option maxRecDepth 8000

/-- C1: the claim fails on the code.  On a buffer whose chunk declares a
length (16) that runs past the end, the reader does not fail with a
TruncatedChunk error identifying the overrun offset: the payload slice is
silently truncated and the reader then dies with a bare `struct.error`
(no offset information, not a `ParseError`), yielding no chunk. -/
theorem truncated_read_gives_plain_struct_error :
    ({ size := 16, data := truncatedInput } : PNGFile).chunks
      = ([], some PyErr.structErr) := by
  decide

/-- C2: the claim fails on the code.  For every chunk payload with no `0x00`
byte, each of the five null-terminated-field decoders stops at the payload
boundary but raises a bare `IndexError` from the unbounded byte scan rather
than an UnterminatedField parse error. -/
theorem null_scan_overrun_gives_index_error
    (inflate : ByteStr → Except PyErr ByteStr) (ihdr : Option IHDRrec)
    (c : PNGChunk) (h : ∀ b ∈ c.data, b.val ≠ 0) :
    tEXt.init ihdr c = .error .indexErr
    ∧ zTXt.init inflate ihdr c = .error .indexErr
    ∧ iTXt.init inflate ihdr c = .error .indexErr
    ∧ iCCP.init inflate ihdr c = .error .indexErr
    ∧ pCAL.init ihdr c = .error .indexErr := by
  have hscan : scanNull c.data 0 = .error .indexErr :=
    scanNull_eq_indexErr (by simpa using h)
  refine ⟨?_, ?_, ?_, ?_, ?_⟩ <;>
    simp [tEXt.init, zTXt.init, iTXt.init, iCCP.init, pCAL.init, hscan, bind,
      Except.bind]

theorem null_scan_overrun_gives_index_error_witness :
    (∀ b ∈ chunkNoNull.data, b.val ≠ 0)
    ∧ tEXt.init none chunkNoNull = .error .indexErr
    ∧ pCAL.init none chunkNoNull = .error .indexErr := by
  have h : ∀ b ∈ chunkNoNull.data, b.val ≠ 0 := by decide
  have hm := null_scan_overrun_gives_index_error okInflate none chunkNoNull h
  exact ⟨h, hm.1, hm.2.2.2.2⟩

/-- C4 counterexample: the physical-size decoder does not fail with a
MissingDependency error when no header has been decoded — with a well-formed
9-byte payload and `header = none` it succeeds. -/
theorem phys_decodes_without_header_counterexample :
    pHYs.init none chunkPhys
      = .ok { offset := 33, ihdr := none, ppux := 1, ppuy := 1, unit := 1 } := by
  decide

/-- C4 (amended): the background-color decoder called without a previously
decoded header fails with `ParseError("IHDR is not set")` (the code's
MissingDependency), for every chunk and regardless of payload contents; the
physical-size decoder performs no such check and succeeds whenever its fixed
9-byte prefix is present.  The chunk scan itself never invokes decoders, so
subsequent chunks are unaffected. -/
theorem background_color_requires_header :
    (∀ chunk : PNGChunk,
      bKGD.init none chunk = .error (.parseErr "IHDR is not set"))
    ∧ (∀ chunk : PNGChunk, 9 ≤ chunk.data.length →
      ∃ r, pHYs.init none chunk = .ok r) := by
  constructor
  · intro chunk
    rfl
  · intro chunk h
    obtain ⟨v, hv⟩ := unpackU8_ok_of_lt (show 8 < chunk.data.length by omega)
    refine ⟨{ offset := chunk.offset, ihdr := none,
              ppux := beNat ((chunk.data.drop 0).take 4),
              ppuy := beNat ((chunk.data.drop 4).take 4), unit := v }, ?_⟩
    simp [pHYs.init, unpackU32_ok_of_le (show 0 + 4 ≤ chunk.data.length by omega),
      unpackU32_ok_of_le (show 4 + 4 ≤ chunk.data.length by omega), hv, bind,
      Except.bind, pure, Except.pure]

theorem background_color_requires_header_witness :
    bKGD.init none chunkBkgd = .error (.parseErr "IHDR is not set")
    ∧ (9 ≤ chunkPhys.data.length ∧ ∃ r, pHYs.init none chunkPhys = .ok r) :=
  ⟨background_color_requires_header.1 chunkBkgd,
   by decide, background_color_requires_header.2 chunkPhys (by decide)⟩

/-- C7: construction of the stream fails with the MagicMismatch
`ParseError` exactly when the first 8 bytes are not the PNG signature, and
then no `PNGFile` exists for `chunks` to be read from; when the buffer does
start with the signature, construction succeeds with the data stored. -/
theorem magic_mismatch_before_any_chunk (data : ByteStr) :
    (PNGFile.init data
        = .error (.parseErr "Error parsing PNG data. Missing magic header")
      ↔ data.take 8 ≠ PNGMAGIC)
    ∧ (data.take 8 = PNGMAGIC →
      PNGFile.init data = .ok { size := data.length, data := data }) := by
  have hpng := is_png_iff_take data
  constructor
  · constructor
    · intro h hmagic
      have hb : is_png data = true := hpng.mpr hmagic
      simp [PNGFile.init, hb] at h
    · intro h
      have hb : is_png data = false := by
        cases hb : is_png data
        · rfl
        · exact absurd (hpng.mp hb) h
      simp [PNGFile.init, hb]
  · intro h
    simp [PNGFile.init, hpng.mpr h]

theorem magic_mismatch_before_any_chunk_witness :
    PNGFile.init PNGMAGIC = .ok { size := 8, data := PNGMAGIC }
    ∧ PNGFile.init [0x00]
        = .error (.parseErr "Error parsing PNG data. Missing magic header") :=
  ⟨(magic_mismatch_before_any_chunk PNGMAGIC).2 (by decide),
   (magic_mismatch_before_any_chunk [0x00]).1.mpr (by decide)⟩

/-- C9: for a 4-byte gamma payload the decoded value is exactly the
big-endian u32 divided by 100000 (Python's float division idealized as the
exact rational). -/
theorem gamma_is_u32_div_100000 (ihdr : Option IHDRrec) (c : PNGChunk)
    (h : c.data.length = 4) :
    gAMA.init ihdr c
      = .ok { offset := c.offset, gamma := (beNat c.data : ℚ) / 100000 } := by
  have hd : c.data.drop 0 = c.data ++ [] := by simp
  have e : unpackU32 c.data 0 = .ok (beNat c.data) := unpackU32_of_drop hd h
  simp [gAMA.init, e, bind, Except.bind, pure, Except.pure]

theorem gamma_is_u32_div_100000_witness :
    chunkGamma.data.length = 4
    ∧ gAMA.init none chunkGamma = .ok { offset := 33, gamma := (0.45455 : ℚ) } := by
  refine ⟨by decide, ?_⟩
  have h := gamma_is_u32_div_100000 none chunkGamma (by decide)
  rw [h, show beNat chunkGamma.data = 45455 from by decide]
  norm_num [chunkGamma, PNGChunk.init]

/-- C10: dispatching any chunk through the decoder registry (all twelve
typed decoders, or the pass-through for unrecognized tags) leaves every
field of the chunk — offset, type tag, payload, stored CRC, validity flag —
unchanged; the registry has exactly twelve entries. -/
theorem decoders_never_mutate_chunk
    (inflate : ByteStr → Except PyErr ByteStr) (ihdr : Option IHDRrec)
    (c : PNGChunk) :
    (decodeDispatch inflate ihdr c).2 = c
    ∧ (chunkRegistry inflate).length = 12 := by
  constructor
  · unfold decodeDispatch
    cases h : (chunkRegistry inflate).lookup c.type <;> rfl
  · rfl

/-- C8 counterexample: a pCAL chunk whose `x0` field is `FF FF FF FF`
decodes to `4294967295`, not to the negative value `-1` that a signed
(i32) read would produce. -/
theorem pcal_msb_not_negative_counterexample :
    (pCAL.init none chunkPcal).map (fun r => r.x0) = .ok (4294967295 : Int)
    ∧ ¬ ((4294967295 : Int) < 0)
    ∧ toSigned32 (beNat [0xFF, 0xFF, 0xFF, 0xFF]) = (-1 : Int) := by
  refine ⟨by decide, by decide, by decide⟩

/-! ## Invariant of chunks yielded by the stream reader -/

theorem readChunksF_crc_inv (fuel : Nat) :
    ∀ (data : ByteStr) (off : Nat) (ch : PNGChunk),
      ch ∈ (readChunksF fuel data off).1 →
      ∃ u : Nat, u < 2 ^ 32 ∧ ch.crc32 = toSigned32 u ∧
        ch.valid
          = decide (toSigned32 (binascii.crc32 (ch.type ++ ch.data))
              = toSigned32 u) := by
  induction fuel with
  | zero =>
    intro data off ch h
    simp [readChunksF] at h
  | succ k ih =>
    intro data off ch h
    simp only [readChunksF] at h
    by_cases hoff : off < data.length
    · rw [if_pos hoff] at h
      cases h32 : unpackU32 data off with
      | error e => simp only [h32] at h; simp at h
      | ok size =>
        simp only [h32] at h
        cases htag : unpackTag data (off + 4) with
        | error e => simp only [htag] at h; simp at h
        | ok ty =>
          simp only [htag] at h
          cases hcrc : unpackI32 data (off + 8 + size) with
          | error e => simp only [hcrc] at h; simp at h
          | ok crc =>
            simp only [hcrc] at h
            simp only [List.mem_cons] at h
            rcases h with hc | hmem
            · obtain ⟨u, hu, hv⟩ := unpackI32_ok hcrc
              refine ⟨u, hu, ?_, ?_⟩
              · rw [hc]
                simpa [PNGChunk.init] using hv
              · rw [hc]
                simp [PNGChunk.init, hv]
            · exact ih data (off + 8 + size + 4) ch hmem
    · rw [if_neg hoff] at h
      simp at h

/-- C3: for every chunk yielded by the stream reader, `valid` is true
exactly when the standard CRC-32 over the type tag concatenated with the
payload equals the stored checksum read from the trailing 4 bytes
(recovered as the unsigned value `toUnsigned32 ch.crc32`); the property is a
function of that chunk's own fields alone, so it is independent of every
other chunk in the stream. -/
theorem is_valid_iff_crc32_matches (f : PNGFile) (ch : PNGChunk)
    (h : ch ∈ f.chunks.1) :
    ch.valid = true
      ↔ binascii.crc32 (ch.type ++ ch.data) = toUnsigned32 ch.crc32 := by
  obtain ⟨u, hu, hcrc, hvalid⟩ :=
    readChunksF_crc_inv (f.data.length + 1) f.data PNGMAGIC.length ch h
  rw [hcrc, toUnsigned32_toSigned32 hu, hvalid]
  simp [toSigned32_inj (crc32_lt (ch.type ++ ch.data)) hu]

theorem is_valid_iff_crc32_matches_witness :
    PNGChunk.init 8 [0x49, 0x45, 0x4E, 0x44] [] (toSigned32 0xAE426082)
        ∈ fileIEND.chunks.1
    ∧ ((PNGChunk.init 8 [0x49, 0x45, 0x4E, 0x44] []
          (toSigned32 0xAE426082)).valid = true
      ↔ binascii.crc32 ([0x49, 0x45, 0x4E, 0x44] ++ [])
          = toUnsigned32 (PNGChunk.init 8 [0x49, 0x45, 0x4E, 0x44] []
              (toSigned32 0xAE426082)).crc32) :=
  ⟨by decide, is_valid_iff_crc32_matches fileIEND _ (by decide)⟩

/-- C6 counterexample: with stored CRC bytes `FF FF FF FF` the yielded
chunk's stored-checksum field is `-1` — a negative value, so the checksum is
not held as an unsigned 32-bit value in the range 0..2^32-1 — and the
display path bit-casts it back to `4294967295` only when printing. -/
theorem stored_crc_negative_counterexample :
    fileFFCrc.chunks.1.map PNGChunk.crc32 = [(-1 : Int)]
    ∧ (-1 : Int) < 0
    ∧ fileFFCrc.chunks.1.map PNGChunk.crcDisplay = [4294967295] := by
  refine ⟨by decide, by decide, by decide⟩

/-- C6 (amended): the stored checksum is read with the signed big-endian
format `">i"`, so the chunk stores `toSigned32` of the unsigned 4-byte value
`u`, and the display method recovers `u` by a bit-cast; because the
comparison against Python 2's signed `binascii.crc32` is performed
consistently in signed form, `valid` still coincides with the unsigned
CRC-32 comparison. -/
theorem stored_crc_signed_with_display_bitcast (f : PNGFile) (ch : PNGChunk)
    (h : ch ∈ f.chunks.1) :
    ∃ u : Nat, u < 2 ^ 32 ∧ ch.crc32 = toSigned32 u ∧ ch.crcDisplay = u ∧
      (ch.valid = true ↔ binascii.crc32 (ch.type ++ ch.data) = u) := by
  obtain ⟨u, hu, hcrc, hvalid⟩ :=
    readChunksF_crc_inv (f.data.length + 1) f.data PNGMAGIC.length ch h
  refine ⟨u, hu, hcrc, ?_, ?_⟩
  · rw [PNGChunk.crcDisplay, hcrc, toUnsigned32_toSigned32 hu]
  · rw [hvalid]
    simp [toSigned32_inj (crc32_lt (ch.type ++ ch.data)) hu]

theorem stored_crc_signed_with_display_bitcast_witness :
    PNGChunk.init 8 [0x49, 0x45, 0x4E, 0x44] [] (toSigned32 0xFFFFFFFF)
        ∈ fileFFCrc.chunks.1
    ∧ ∃ u : Nat, u < 2 ^ 32
      ∧ (PNGChunk.init 8 [0x49, 0x45, 0x4E, 0x44] []
          (toSigned32 0xFFFFFFFF)).crc32 = toSigned32 u
      ∧ (PNGChunk.init 8 [0x49, 0x45, 0x4E, 0x44] []
          (toSigned32 0xFFFFFFFF)).crcDisplay = u
      ∧ ((PNGChunk.init 8 [0x49, 0x45, 0x4E, 0x44] []
          (toSigned32 0xFFFFFFFF)).valid = true
        ↔ binascii.crc32
            ((PNGChunk.init 8 [0x49, 0x45, 0x4E, 0x44] []
              (toSigned32 0xFFFFFFFF)).type
              ++ (PNGChunk.init 8 [0x49, 0x45, 0x4E, 0x44] []
                (toSigned32 0xFFFFFFFF)).data) = u) :=
  ⟨by decide, stored_crc_signed_with_display_bitcast fileFFCrc _ (by decide)⟩

/-! ## Dropping past a scanned null terminator -/

theorem drop_past_null {data a t : ByteStr} {off : Nat}
    (hd : data.drop off = a ++ (0 : Byte) :: t) :
    data.drop (off + (a.length + 1)) = t := by
  have h2 : data.drop off = (a ++ [(0 : Byte)]) ++ t := by
    rw [hd]
    simp
  exact drop_shift h2 (by simp)

/-- C8 (amended): the pCAL fields `x0` and `x1` are decoded with the
unsigned big-endian format `">I"`: for every payload laid out as
name, terminator, 4-byte `x0`, 4-byte `x1`, equation type, parameter count,
unit name, parameter 0 and trailing bytes, the decoded `x0` and `x1` are the
unsigned values of their 4 bytes — always in `[0, 2^32)`, never negative,
even when the most significant bit is set. -/
theorem pcal_x0_x1_decoded_unsigned (ihdr : Option IHDRrec)
    (name x0B x1B unitN p0B plB : ByteStr) (e n : Byte) (c : PNGChunk)
    (hname : ∀ x ∈ name, x.val ≠ 0) (hunit : ∀ x ∈ unitN, x.val ≠ 0)
    (hp0 : ∀ x ∈ p0B, x.val ≠ 0) (hx0 : x0B.length = 4) (hx1 : x1B.length = 4)
    (hdata : c.data =
      name ++ (0 : Byte) :: (x0B ++ (x1B ++ e :: n ::
        (unitN ++ (0 : Byte) :: (p0B ++ (0 : Byte) :: plB))))) :
    pCAL.init ihdr c =
      .ok { offset := c.offset, calibration_name := name,
            x0 := (beNat x0B : Int), x1 := (beNat x1B : Int),
            eqtype := e.val, num_params := n.val, unit_name := unitN,
            p0 := p0B, pl := plB }
    ∧ 0 ≤ (beNat x0B : Int) ∧ (beNat x0B : Int) < 2 ^ 32
    ∧ 0 ≤ (beNat x1B : Int) ∧ (beNat x1B : Int) < 2 ^ 32 := by
  have h0 : c.data.drop 0 = name ++ (0 : Byte) :: (x0B ++ (x1B ++ e :: n ::
      (unitN ++ (0 : Byte) :: (p0B ++ (0 : Byte) :: plB)))) := by
    simpa using hdata
  have s1 : scanNull c.data 0 = .ok (name, name.length + 1) := by
    simpa using scanNull_of_drop h0 hname
  have d1 : c.data.drop (name.length + 1) = x0B ++ (x1B ++ e :: n ::
      (unitN ++ (0 : Byte) :: (p0B ++ (0 : Byte) :: plB))) := by
    simpa using drop_past_null h0
  have s2 : unpackU32 c.data (name.length + 1) = .ok (beNat x0B) :=
    unpackU32_of_drop d1 hx0
  have d2 : c.data.drop (name.length + 1 + 4) = x1B ++ (e :: n ::
      (unitN ++ (0 : Byte) :: (p0B ++ (0 : Byte) :: plB))) :=
    drop_shift d1 hx0
  have s3 : unpackU32 c.data (name.length + 1 + 4) = .ok (beNat x1B) :=
    unpackU32_of_drop d2 hx1
  have d3 : c.data.drop (name.length + 1 + 8) = e :: n ::
      (unitN ++ (0 : Byte) :: (p0B ++ (0 : Byte) :: plB)) := by
    rw [show name.length + 1 + 8 = name.length + 1 + 4 + 4 from by omega]
    exact drop_shift d2 hx1
  have s4 : unpackU8 c.data (name.length + 1 + 8) = .ok e.val :=
    unpackU8_of_drop d3
  have d4 : c.data.drop (name.length + 1 + 9) = n ::
      (unitN ++ (0 : Byte) :: (p0B ++ (0 : Byte) :: plB)) := by
    rw [show name.length + 1 + 9 = name.length + 1 + 8 + 1 from by omega]
    exact drop_shift (show c.data.drop (name.length + 1 + 8)
      = [e] ++ n :: (unitN ++ (0 : Byte) :: (p0B ++ (0 : Byte) :: plB))
      from by rw [d3]; rfl) (by simp)
  have s5 : unpackU8 c.data (name.length + 1 + 9) = .ok n.val :=
    unpackU8_of_drop d4
  have d5 : c.data.drop (name.length + 1 + 10) =
      unitN ++ (0 : Byte) :: (p0B ++ (0 : Byte) :: plB) := by
    rw [show name.length + 1 + 10 = name.length + 1 + 9 + 1 from by omega]
    exact drop_shift (show c.data.drop (name.length + 1 + 9)
      = [n] ++ (unitN ++ (0 : Byte) :: (p0B ++ (0 : Byte) :: plB))
      from by rw [d4]; rfl) (by simp)
  have s6 : scanNull c.data (name.length + 1 + 10) =
      .ok (unitN, name.length + 1 + 10 + (unitN.length + 1)) :=
    scanNull_of_drop d5 hunit
  have d6 : c.data.drop (name.length + 1 + 10 + (unitN.length + 1)) =
      p0B ++ (0 : Byte) :: plB :=
    drop_past_null d5
  have s7 : scanNull c.data (name.length + 1 + 10 + (unitN.length + 1)) =
      .ok (p0B, name.length + 1 + 10 + (unitN.length + 1) + (p0B.length + 1)) :=
    scanNull_of_drop d6 hp0
  have d7 : c.data.drop
      (name.length + 1 + 10 + (unitN.length + 1) + (p0B.length + 1)) = plB :=
    drop_past_null d6
  refine ⟨?_, Int.natCast_nonneg _, ?_, Int.natCast_nonneg _, ?_⟩
  · simp only [pCAL.init, s1, s2, s3, s4, s5, s6, s7, d7, bind, Except.bind,
      pure, Except.pure]
  · exact_mod_cast beNat_lt_of_length_four hx0
  · exact_mod_cast beNat_lt_of_length_four hx1

theorem pcal_x0_x1_decoded_unsigned_witness :
    pCAL.init none chunkPcal =
      .ok { offset := 33, calibration_name := [], x0 := (4294967295 : Int),
            x1 := (1 : Int), eqtype := 1, num_params := 0, unit_name := [],
            p0 := [], pl := [] }
    ∧ 0 ≤ (4294967295 : Int) ∧ (4294967295 : Int) < 2 ^ 32
    ∧ 0 ≤ (1 : Int) ∧ (1 : Int) < 2 ^ 32 := by
  have h := pcal_x0_x1_decoded_unsigned none [] [0xFF, 0xFF, 0xFF, 0xFF]
    [0x00, 0x00, 0x00, 0x01] [] [] [] 1 0 chunkPcal (by decide) (by decide)
    (by decide) (by decide) (by decide) (by decide)
  exact h

/-! ## The scan depends only on the length and the suffix from the offset -/

theorem unpackU32_congr {d₁ d₂ : ByteStr} {off : Nat}
    (h : d₁.drop off = d₂.drop off) : unpackU32 d₁ off = unpackU32 d₂ off := by
  simp only [unpackU32, pyslice_eq_take_drop, h]

theorem unpackTag_congr {d₁ d₂ : ByteStr} {off : Nat}
    (h : d₁.drop off = d₂.drop off) : unpackTag d₁ off = unpackTag d₂ off := by
  simp only [unpackTag, pyslice_eq_take_drop, h]

theorem unpackI32_congr {d₁ d₂ : ByteStr} {off : Nat}
    (h : d₁.drop off = d₂.drop off) : unpackI32 d₁ off = unpackI32 d₂ off := by
  simp only [unpackI32, unpackU32_congr h]

theorem readChunksF_ext (fuel : Nat) :
    ∀ (d₁ d₂ : ByteStr) (off : Nat), d₁.length = d₂.length →
      d₁.drop off = d₂.drop off →
      readChunksF fuel d₁ off = readChunksF fuel d₂ off := by
  induction fuel with
  | zero => intro _ _ _ _ _; rfl
  | succ k ih =>
    intro d₁ d₂ off hlen hdrop
    have e1 : unpackU32 d₁ off = unpackU32 d₂ off := unpackU32_congr hdrop
    have e2 : unpackTag d₁ (off + 4) = unpackTag d₂ (off + 4) :=
      unpackTag_congr (drop_congr_of_ge hdrop (by omega))
    have e3 : ∀ m : Nat, pyslice d₁ (off + 8) (off + 8 + m)
        = pyslice d₂ (off + 8) (off + 8 + m) := by
      intro m
      rw [pyslice_eq_take_drop, pyslice_eq_take_drop,
        drop_congr_of_ge hdrop (show off ≤ off + 8 by omega)]
    have e4 : ∀ m : Nat, unpackI32 d₁ (off + 8 + m)
        = unpackI32 d₂ (off + 8 + m) := fun m =>
      unpackI32_congr (drop_congr_of_ge hdrop (by omega))
    have e5 : ∀ m : Nat, readChunksF k d₁ (off + 8 + m + 4)
        = readChunksF k d₂ (off + 8 + m + 4) := fun m =>
      ih d₁ d₂ (off + 8 + m + 4) hlen (drop_congr_of_ge hdrop (by omega))
    simp only [readChunksF, hlen, e1, e2, e3, e4, e5]

/-- Evaluation of one loop iteration of the reader on a buffer that carries
a complete chunk at offset 8: the chunk is yielded with its payload and the
signed reinterpretation of its stored CRC bytes, and the scan continues
past it. -/
theorem readChunks_single (lenB ty payload crcX rest : ByteStr) (fuel : Nat)
    (hlen : lenB.length = 4) (hty : ty.length = 4) (hcrcX : crcX.length = 4)
    (hsz : beNat lenB = payload.length) :
    readChunksF (fuel + 1) (PNGMAGIC ++ lenB ++ ty ++ payload ++ crcX ++ rest) 8
      = (PNGChunk.init 8 ty payload (toSigned32 (beNat crcX)) ::
          (readChunksF fuel (PNGMAGIC ++ lenB ++ ty ++ payload ++ crcX ++ rest)
            (8 + 8 + beNat lenB + 4)).1,
         (readChunksF fuel (PNGMAGIC ++ lenB ++ ty ++ payload ++ crcX ++ rest)
            (8 + 8 + beNat lenB + 4)).2) := by
  have hd8 : (PNGMAGIC ++ lenB ++ ty ++ payload ++ crcX ++ rest).drop 8
      = lenB ++ (ty ++ (payload ++ (crcX ++ rest))) := by
    rw [show PNGMAGIC ++ lenB ++ ty ++ payload ++ crcX ++ rest
        = PNGMAGIC ++ (lenB ++ (ty ++ (payload ++ (crcX ++ rest))))
        from by simp]
    exact List.drop_left' rfl
  have h8lt : 8 < (PNGMAGIC ++ lenB ++ ty ++ payload ++ crcX ++ rest).length := by
    simp [PNGMAGIC, hlen]
  have r1 : unpackU32 (PNGMAGIC ++ lenB ++ ty ++ payload ++ crcX ++ rest) 8
      = .ok (beNat lenB) := unpackU32_of_drop hd8 hlen
  have dd12 : (PNGMAGIC ++ lenB ++ ty ++ payload ++ crcX ++ rest).drop (8 + 4)
      = ty ++ (payload ++ (crcX ++ rest)) := drop_shift hd8 hlen
  have r2 : unpackTag (PNGMAGIC ++ lenB ++ ty ++ payload ++ crcX ++ rest) (8 + 4)
      = .ok ty := unpackTag_of_drop dd12 hty
  have dd16 : (PNGMAGIC ++ lenB ++ ty ++ payload ++ crcX ++ rest).drop (8 + 8)
      = payload ++ (crcX ++ rest) := by
    rw [show (8 : Nat) + 8 = 8 + 4 + 4 from by omega]
    exact drop_shift dd12 hty
  have r3 : pyslice (PNGMAGIC ++ lenB ++ ty ++ payload ++ crcX ++ rest)
      (8 + 8) (8 + 8 + beNat lenB) = payload := by
    rw [pyslice_eq_take_drop, dd16, List.take_left' hsz.symm]
  have ddcrc : (PNGMAGIC ++ lenB ++ ty ++ payload ++ crcX ++ rest).drop
      (8 + 8 + beNat lenB) = crcX ++ rest := drop_shift dd16 hsz.symm
  have r4 : unpackI32 (PNGMAGIC ++ lenB ++ ty ++ payload ++ crcX ++ rest)
      (8 + 8 + beNat lenB) = .ok (toSigned32 (beNat crcX)) :=
    unpackI32_of_drop ddcrc hcrcX
  simp only [readChunksF]
  rw [if_pos h8lt]
  simp only [r1, r2, r3, r4]

/-- The header decoder reads only the chunk's offset and payload: chunks
agreeing on those two fields decode identically, whatever their stored CRC
or validity flag. -/
theorem IHDR_init_congr (ih : Option IHDRrec) (c c' : PNGChunk)
    (ho : c.offset = c'.offset) (hd : c.data = c'.data) :
    IHDR.init ih c = IHDR.init ih c' := by
  simp only [IHDR.init, ho, hd]

/-- C5: corrupting the stored checksum of a chunk changes nothing but that
chunk's `crc32`/`valid` fields.  For a buffer holding a complete chunk at
offset 8 with arbitrary stored CRC bytes, the chunk is yielded in both the
original and the corrupted stream (later chunks and the scan outcome
identical), `valid` records exactly whether the stored bytes match the
recomputed CRC-32, and the header decoder produces exactly the same result
on both chunks — structural decode is independent of checksum validity. -/
theorem corrupt_crc_chunk_still_yielded_and_decoded
    (lenB ty payload crcB crcB' rest : ByteStr)
    (hlen : lenB.length = 4) (hty : ty.length = 4) (hcrc : crcB.length = 4)
    (hcrc' : crcB'.length = 4) (hsz : beNat lenB = payload.length) :
    ∃ ch ch' : PNGChunk, ∃ tl : List PNGChunk × Option PyErr,
      ({ size := (PNGMAGIC ++ lenB ++ ty ++ payload ++ crcB ++ rest).length,
         data := PNGMAGIC ++ lenB ++ ty ++ payload ++ crcB ++ rest } :
           PNGFile).chunks = (ch :: tl.1, tl.2)
      ∧ ({ size := (PNGMAGIC ++ lenB ++ ty ++ payload ++ crcB' ++ rest).length,
           data := PNGMAGIC ++ lenB ++ ty ++ payload ++ crcB' ++ rest } :
             PNGFile).chunks = (ch' :: tl.1, tl.2)
      ∧ ch.offset = 8 ∧ ch'.offset = 8
      ∧ ch.type = ty ∧ ch'.type = ty
      ∧ ch.data = payload ∧ ch'.data = payload
      ∧ ch.valid = decide (binascii.crc32 (ty ++ payload) = beNat crcB)
      ∧ ch'.valid = decide (binascii.crc32 (ty ++ payload) = beNat crcB')
      ∧ IHDR.init none ch = IHDR.init none ch' := by
  have hlength : (PNGMAGIC ++ lenB ++ ty ++ payload ++ crcB' ++ rest).length
      = (PNGMAGIC ++ lenB ++ ty ++ payload ++ crcB ++ rest).length := by
    simp [hcrc, hcrc']
  have hdropX : ∀ crcX : ByteStr, crcX.length = 4 →
      (PNGMAGIC ++ lenB ++ ty ++ payload ++ crcX ++ rest).drop
        (8 + 8 + beNat lenB + 4) = rest := by
    intro crcX hcrcX
    rw [show PNGMAGIC ++ lenB ++ ty ++ payload ++ crcX ++ rest
        = (PNGMAGIC ++ lenB ++ ty ++ payload ++ crcX) ++ rest from by simp]
    apply List.drop_left'
    simp [PNGMAGIC, hlen, hty, hcrcX]
    omega
  have hext : readChunksF
        (PNGMAGIC ++ lenB ++ ty ++ payload ++ crcB' ++ rest).length
        (PNGMAGIC ++ lenB ++ ty ++ payload ++ crcB' ++ rest)
        (8 + 8 + beNat lenB + 4)
      = readChunksF (PNGMAGIC ++ lenB ++ ty ++ payload ++ crcB ++ rest).length
        (PNGMAGIC ++ lenB ++ ty ++ payload ++ crcB ++ rest)
        (8 + 8 + beNat lenB + 4) := by
    rw [hlength]
    exact readChunksF_ext _ _ _ _ hlength
      (by rw [hdropX crcB' hcrc', hdropX crcB hcrc])
  refine ⟨PNGChunk.init 8 ty payload (toSigned32 (beNat crcB)),
    PNGChunk.init 8 ty payload (toSigned32 (beNat crcB')),
    readChunksF (PNGMAGIC ++ lenB ++ ty ++ payload ++ crcB ++ rest).length
      (PNGMAGIC ++ lenB ++ ty ++ payload ++ crcB ++ rest)
      (8 + 8 + beNat lenB + 4),
    ?_, ?_, rfl, rfl, rfl, rfl, rfl, rfl, ?_, ?_,
    IHDR_init_congr none _ _ rfl rfl⟩
  · exact readChunks_single lenB ty payload crcB rest _ hlen hty hcrc hsz
  · exact (readChunks_single lenB ty payload crcB' rest _ hlen hty hcrc' hsz).trans
      (by rw [hext])
  · show decide (toSigned32 (binascii.crc32 (ty ++ payload))
        = toSigned32 (beNat crcB)) = _
    exact decide_eq_decide.mpr
      (toSigned32_inj (crc32_lt (ty ++ payload)) (beNat_lt_of_length_four hcrc))
  · show decide (toSigned32 (binascii.crc32 (ty ++ payload))
        = toSigned32 (beNat crcB')) = _
    exact decide_eq_decide.mpr
      (toSigned32_inj (crc32_lt (ty ++ payload)) (beNat_lt_of_length_four hcrc'))

theorem corrupt_crc_chunk_still_yielded_and_decoded_witness :
    beNat [0x00, 0x00, 0x00, 0x0D] = ihdrPayload.length
    ∧ ∃ ch ch' : PNGChunk, ∃ tl : List PNGChunk × Option PyErr,
      ({ size := (PNGMAGIC ++ [0x00, 0x00, 0x00, 0x0D]
            ++ [0x49, 0x48, 0x44, 0x52] ++ ihdrPayload
            ++ [0x90, 0x77, 0x53, 0xDE] ++ []).length,
         data := PNGMAGIC ++ [0x00, 0x00, 0x00, 0x0D]
            ++ [0x49, 0x48, 0x44, 0x52] ++ ihdrPayload
            ++ [0x90, 0x77, 0x53, 0xDE] ++ [] } : PNGFile).chunks
        = (ch :: tl.1, tl.2)
      ∧ ({ size := (PNGMAGIC ++ [0x00, 0x00, 0x00, 0x0D]
            ++ [0x49, 0x48, 0x44, 0x52] ++ ihdrPayload
            ++ [0x00, 0x00, 0x00, 0x00] ++ []).length,
           data := PNGMAGIC ++ [0x00, 0x00, 0x00, 0x0D]
            ++ [0x49, 0x48, 0x44, 0x52] ++ ihdrPayload
            ++ [0x00, 0x00, 0x00, 0x00] ++ [] } : PNGFile).chunks
        = (ch' :: tl.1, tl.2)
      ∧ ch.offset = 8 ∧ ch'.offset = 8
      ∧ ch.type = [0x49, 0x48, 0x44, 0x52] ∧ ch'.type = [0x49, 0x48, 0x44, 0x52]
      ∧ ch.data = ihdrPayload ∧ ch'.data = ihdrPayload
      ∧ ch.valid = decide (binascii.crc32 ([0x49, 0x48, 0x44, 0x52] ++ ihdrPayload)
          = beNat [0x90, 0x77, 0x53, 0xDE])
      ∧ ch'.valid = decide (binascii.crc32 ([0x49, 0x48, 0x44, 0x52] ++ ihdrPayload)
          = beNat [0x00, 0x00, 0x00, 0x00])
      ∧ IHDR.init none ch = IHDR.init none ch' :=
  ⟨by decide,
   corrupt_crc_chunk_still_yielded_and_decoded [0x00, 0x00, 0x00, 0x0D]
     [0x49, 0x48, 0x44, 0x52] ihdrPayload [0x90, 0x77, 0x53, 0xDE]
     [0x00, 0x00, 0x00, 0x00] [] rfl rfl rfl rfl (by decide)⟩
